import Mathlib

/-
Shallow embedding of expr/helper/helper.go (series alignment and aggregation
helpers of a Graphite-style expression evaluator) and proofs about it.

Modelling conventions:
- Go int64 times and steps are Lean Int (no realistic claim here depends on
  64-bit wraparound).
- Go float64 sample values are modelled exactly by F64: a NaN marker, two
  infinity markers, and exact rationals (IEEE rounding is not modelled; no
  claim below depends on rounding).
- Go runtime panics (index out of range, makeslice with negative length,
  integer division by zero) are modelled as Except.error values of GoPanic.
- Package-level mutable singletons (the injected Evaluator and the
  ExtrapolatePoints flag, both declared outside this file's source) are
  modelled as explicit parameters.
- Loops that mutate slices in place become folds returning the updated list.
-/

namespace CarbonHelper

/-- Exact model of a Go float64 sample value: NaN, infinities, or a rational. -/
inductive F64 where
  | nan : F64
  | inf : F64
  | neginf : F64
  | val : ℚ → F64
deriving DecidableEq

/-- Go float64 subtraction on the F64 model. -/
def F64.sub : F64 → F64 → F64
  | .nan, _ => .nan
  | _, .nan => .nan
  | .inf, .inf => .nan
  | .inf, _ => .inf
  | .neginf, .neginf => .nan
  | .neginf, _ => .neginf
  | .val _, .inf => .neginf
  | .val _, .neginf => .inf
  | .val a, .val b => .val (a - b)

/-- Go float64 addition on the F64 model. -/
def F64.add : F64 → F64 → F64
  | .nan, _ => .nan
  | _, .nan => .nan
  | .inf, .neginf => .nan
  | .neginf, .inf => .nan
  | .inf, _ => .inf
  | .neginf, _ => .neginf
  | .val _, .inf => .inf
  | .val _, .neginf => .neginf
  | .val a, .val b => .val (a + b)

/-- Go float64 division of a sample by an exact-rational float (the sign of
IEEE zero is not modelled; division by zero of a nonzero value yields an
infinity, of zero yields NaN). -/
def F64.divQ : F64 → ℚ → F64
  | .nan, _ => .nan
  | .inf, q => if q < 0 then .neginf else .inf
  | .neginf, q => if q < 0 then .inf else .neginf
  | .val a, q =>
    if q = 0 then (if a = 0 then .nan else if 0 < a then .inf else .neginf)
    else .val (a / q)

/-- Modelled from the spec: the Series data model (types.MetricData is declared
outside this package): display name, ordered sample values, start/stop
instants, and step. -/
structure MetricData where
  Name : String
  Values : List F64
  StartTime : Int
  StopTime : Int
  StepTime : Int
deriving DecidableEq

/-- Modelled from the spec: an AST argument node (parser.Expr is declared
outside this package): name/function kind flags, the function name (target),
the raw-argument text, and the child argument nodes. -/
inductive Expr where
  | mk : Bool → Bool → String → String → List Expr → Expr

/-- Whether the node is a bare name reference. -/
def Expr.isName : Expr → Bool
  | .mk b _ _ _ _ => b

/-- Whether the node is a function call. -/
def Expr.isFunc : Expr → Bool
  | .mk _ b _ _ _ => b

/-- The node's function name. -/
def Expr.target : Expr → String
  | .mk _ _ t _ _ => t

/-- The node's raw-argument text. -/
def Expr.rawArgs : Expr → String
  | .mk _ _ _ r _ => r

/-- The node's child argument nodes. -/
def Expr.args : Expr → List Expr
  | .mk _ _ _ _ a => a

/-- Go error values observed by this package (parser.ErrMissingTimeseries,
parser.ErrSeriesDoesNotExist, and any other evaluator error). -/
inductive GoErr where
  | errMissingTimeseries : GoErr
  | errSeriesDoesNotExist : GoErr
  | errOther : String → GoErr
deriving DecidableEq

/-- Go runtime panics the embedded code can raise. `nonterminating` is a model
artifact: it is returned when the extrapolation loop's fuel runs out, which
corresponds to a diverging Go loop (non-positive common step), and
`undefinedConv` models Go's implementation-defined conversion of a non-finite
float to int. -/
inductive GoPanic where
  | indexOutOfRange : GoPanic
  | makeNegativeLen : GoPanic
  | divideByZero : GoPanic
  | undefinedConv : GoPanic
  | nonterminating : GoPanic
deriving DecidableEq

/-- Abnormal outcome of a helper: a returned Go error value or a runtime panic. -/
inductive GoAbort where
  | err : GoErr → GoAbort
  | panic : GoPanic → GoAbort
deriving DecidableEq

/-- Modelled from the spec: the key of the resolved-values map
(parser.MetricRequest is declared outside this package). -/
structure MetricRequest where
  Metric : String
  FromTime : Int
  UntilTime : Int
deriving DecidableEq

/-- The resolved-values map; the helpers never read it, they only pass it on. -/
abbrev ValuesMap := List (MetricRequest × List MetricData)

/-- The injected Evaluator capability (interfaces.Evaluator): evaluates an AST
node over a time window and returns its resolved series or a Go error. -/
abbrev Evaluator := Expr → Int → Int → ValuesMap → Except GoErr (List MetricData)

/-- Go slice indexing expression `l[i]` for reads: panics when out of bounds. -/
def goIndex (l : List F64) (i : Nat) : Except GoPanic F64 :=
  match l[i]? with
  | some x => .ok x
  | none => .error .indexOutOfRange

/-- Go slice element assignment `l[i] = x`: panics when out of bounds. -/
def goSet (l : List F64) (i : Nat) (x : F64) : Except GoPanic (List F64) :=
  if i < l.length then .ok (l.set i x) else .error .indexOutOfRange

/-- Go `make([]float64, n)`: zero-filled; panics when `n` is negative. -/
def goMake (n : Int) : Except GoPanic (List F64) :=
  if n < 0 then .error .makeNegativeLen else .ok (List.replicate n.toNat (F64.val 0))

/-- Go int64 division: truncated toward zero; panics when dividing by zero. -/
def goDiv (a b : Int) : Except GoPanic Int :=
  if b = 0 then .error .divideByZero else .ok (a.tdiv b)

/-- Go slice indexing `l[0]` (used via `args[0]` and `e.Args()[0]`). -/
def goHead {α : Type} : List α → Except GoPanic α
  | [] => .error .indexOutOfRange
  | a :: _ => .ok a

/-- Exact model of Go `int(math.Ceil(float64 a / float64 b))` for int64 inputs:
the ceiling of the exact quotient, expressed with floor division. Conversion of
a non-finite float (zero divisor) to int is implementation-defined in Go and is
modelled as a panic-like abort. -/
def goCeilDiv (a b : Int) : Except GoPanic Int :=
  if b = 0 then .error .undefinedConv else .ok (-((-a).fdiv b))

/-- The body of AlignSeries' extrapolation loop
(the `for ts < arg.StopTime` loop, helper.go lines 134-145), one fuel unit per
iteration. Go diverges when the common step is non-positive; exhausted fuel
models that as `nonterminating`. -/
def extrapLoop (stopTime stepTime minStepTime : Int) (prevVals : List F64) (ppI : ℚ) :
    Nat → List F64 → Int → Int → Nat → Nat → F64 → F64 → Except GoPanic (List F64)
  | 0, newVals, ts, _, _, _, _, _ =>
    if ts < stopTime then .error .nonterminating else .ok newVals
  | fuel + 1, newVals, ts, nextTs, i, j, v, dv =>
    if ts < stopTime then
      match goSet newVals i v with
      | .error p => .error p
      | .ok newVals =>
        let v := v.add dv
        if nextTs < ts then
          match goIndex prevVals (j + 1) with
          | .error p => .error p
          | .ok vj =>
            match goIndex prevVals j with
            | .error p => .error p
            | .ok prev =>
              extrapLoop stopTime stepTime minStepTime prevVals ppI fuel newVals
                (ts + minStepTime) (nextTs + stepTime) (i + 1) (j + 1) vj
                ((prev.sub vj).divQ ppI)
        else
          extrapLoop stopTime stepTime minStepTime prevVals ppI fuel newVals
            (ts + minStepTime) nextTs (i + 1) j v dv
    else .ok newVals

/-- Resampling of one series onto the common minimum step
(helper.go lines 124-148): linear interpolation with per-segment slope. -/
def extrapolateArg (minStepTime : Int) (arg : MetricData) : Except GoPanic MetricData :=
  match goCeilDiv (arg.StopTime - arg.StartTime) minStepTime with
  | .error p => .error p
  | .ok valsCnt =>
    match goMake valsCnt with
    | .error p => .error p
    | .ok newVals =>
      let ts := arg.StartTime
      let nextTs := arg.StartTime + arg.StepTime
      let ppI : ℚ := ((ts - nextTs : Int) : ℚ) / ((minStepTime : Int) : ℚ)
      match goIndex arg.Values 0 with
      | .error p => .error p
      | .ok v =>
        match goIndex arg.Values 1 with
        | .error p => .error p
        | .ok v1 =>
          let dv := (v.sub v1).divQ ppI
          let fuel := (arg.StopTime - arg.StartTime).toNat + 1
          match extrapLoop arg.StopTime arg.StepTime minStepTime arg.Values ppI fuel
              newVals ts nextTs 0 0 v dv with
          | .error p => .error p
          | .ok newVals => .ok { arg with Values := newVals, StepTime := minStepTime }

/-- The extrapolation sweep over all series (helper.go lines 119-149):
update the running minimum step, then resample any series whose step exceeds
it. Returns the updated minimum step and series list. -/
def extrapFold : Int → List MetricData → Except GoPanic (Int × List MetricData)
  | minStepTime, [] => .ok (minStepTime, [])
  | minStepTime, arg :: rest =>
    let minStepTime := if arg.StepTime < minStepTime then arg.StepTime else minStepTime
    match (if minStepTime < arg.StepTime then extrapolateArg minStepTime arg else .ok arg) with
    | .error p => .error p
    | .ok arg =>
      match extrapFold minStepTime rest with
      | .error p => .error p
      | .ok (m, rest) => .ok (m, arg :: rest)

/-- Front padding of one series (helper.go lines 159-165): when its start is
later than the running minimum start, prepend `(start - minStart) / step`
freshly made samples. Go's `make` zero-fills, so the padding samples are
0.0. -/
def padFront (minStart : Int) (arg : MetricData) : Except GoPanic MetricData :=
  if minStart < arg.StartTime then
    match goDiv (arg.StartTime - minStart) arg.StepTime with
    | .error p => .error p
    | .ok valCnt =>
      match goMake valCnt with
      | .error p => .error p
      | .ok pad => .ok { arg with Values := pad ++ arg.Values, StartTime := minStart }
  else .ok arg

/-- Back padding of one series (helper.go lines 170-175): when its stop is
earlier than the running maximum stop, append `(maxStop - stop) / step`
freshly made (zero-filled) samples. -/
def padBack (maxStop : Int) (arg : MetricData) : Except GoPanic MetricData :=
  if arg.StopTime < maxStop then
    match goDiv (maxStop - arg.StopTime) arg.StepTime with
    | .error p => .error p
    | .ok valCnt =>
      match goMake valCnt with
      | .error p => .error p
      | .ok pad => .ok { arg with Values := arg.Values ++ pad, StopTime := maxStop }
  else .ok arg

/-- The padding step for one series (helper.go lines 156-175): update the
running minimum start and pad the front, then update the running maximum stop
and pad the back. -/
def padOne (minStart maxStop : Int) (arg : MetricData) :
    Except GoPanic (Int × Int × MetricData) :=
  let minStart := if arg.StartTime < minStart then arg.StartTime else minStart
  match padFront minStart arg with
  | .error p => .error p
  | .ok arg =>
    let maxStop := if maxStop < arg.StopTime then arg.StopTime else maxStop
    match padBack maxStop arg with
    | .error p => .error p
    | .ok arg => .ok (minStart, maxStop, arg)

/-- The padding sweep over all series (helper.go lines 152-176), threading the
running minimum start, maximum stop and maximum value count. -/
def padFold : Int → Int → Nat → List MetricData →
    Except GoPanic (Int × Int × Nat × List MetricData)
  | minStart, maxStop, maxVals, [] => .ok (minStart, maxStop, maxVals, [])
  | minStart, maxStop, maxVals, arg :: rest =>
    let maxVals := if maxVals < arg.Values.length then arg.Values.length else maxVals
    match padOne minStart maxStop arg with
    | .error p => .error p
    | .ok (minStart, maxStop, arg) =>
      match padFold minStart maxStop maxVals rest with
      | .error p => .error p
      | .ok (mS, mE, mV, rest) => .ok (mS, mE, mV, arg :: rest)

/-- One iteration of AlignSeries' outer two-pass loop (helper.go lines
117-177): the optional extrapolation sweep followed by the padding sweep. -/
def alignOnePass (extrapolatePoints : Bool) (minStart maxStop : Int) (maxVals : Nat)
    (minStepTime : Int) (args : List MetricData) :
    Except GoPanic (Int × Int × Nat × Int × List MetricData) :=
  match (if extrapolatePoints then extrapFold minStepTime args else .ok (minStepTime, args)) with
  | .error p => .error p
  | .ok (minStepTime, args) =>
    match padFold minStart maxStop maxVals args with
    | .error p => .error p
    | .ok (minStart, maxStop, maxVals, args) =>
      .ok (minStart, maxStop, maxVals, minStepTime, args)

/-- AlignSeries (helper.go lines 112-179). The package-global
ExtrapolatePoints flag is passed explicitly. The accumulators are seeded from
`args[0]` (a panic on an empty list) and the whole reconciliation pass runs
exactly twice. -/
def alignSeries (extrapolatePoints : Bool) (args : List MetricData) :
    Except GoPanic (List MetricData) :=
  match goHead args with
  | .error p => .error p
  | .ok first =>
    match alignOnePass extrapolatePoints first.StartTime first.StopTime 0
        first.StepTime args with
    | .error p => .error p
    | .ok (mS, mE, mV, mStep, args) =>
      match alignOnePass extrapolatePoints mS mE mV mStep args with
      | .error p => .error p
      | .ok (_, _, _, _, args) => .ok args

/-- GetSeriesArg (helper.go lines 34-45): a literal node cannot resolve to
series; otherwise the injected Evaluator's result is returned unchanged. -/
def getSeriesArg (ev : Evaluator) (arg : Expr) (f u : Int) (v : ValuesMap) :
    Except GoErr (List MetricData) :=
  if !arg.isName && !arg.isFunc then .error .errMissingTimeseries
  else
    match ev arg f u v with
    | .error e => .error e
    | .ok a => .ok a

/-- The argument-collection loop of GetSeriesArgs (helper.go lines 61-67):
a SeriesDoesNotExist failure contributes nothing, any other error aborts,
successful resolutions are concatenated in argument order. -/
def collectSeriesArgs (ev : Evaluator) (es : List Expr) (f u : Int) (v : ValuesMap) :
    Except GoErr (List MetricData) :=
  match es with
  | [] => .ok []
  | e :: rest =>
    match getSeriesArg ev e f u v with
    | .error err =>
      if err = .errSeriesDoesNotExist then collectSeriesArgs ev rest f u v
      else .error err
    | .ok a =>
      match collectSeriesArgs ev rest f u v with
      | .error err => .error err
      | .ok r => .ok (a ++ r)

/-- GetSeriesArgs (helper.go lines 58-74): collect all arguments, then fail
with SeriesDoesNotExist when the concatenation is empty. -/
def getSeriesArgs (ev : Evaluator) (es : List Expr) (f u : Int) (v : ValuesMap) :
    Except GoErr (List MetricData) :=
  match collectSeriesArgs ev es f u v with
  | .error e => .error e
  | .ok args => if args = [] then .error .errSeriesDoesNotExist else .ok args

/-- ForEachSeriesDo (helper.go lines 95-109): resolve the node's first child
(`e.Args()[0]` panics when there are no children; any resolution error is
reported as MissingTimeseries), then map each input series through
`function` together with a template: a shallow copy renamed to
"target(input name)" whose buffer is freshly allocated (zero-filled) to the
input's length. -/
def forEachSeriesDo (ev : Evaluator) (e : Expr) (f u : Int) (v : ValuesMap)
    (function : MetricData → MetricData → MetricData) : Except GoAbort (List MetricData) :=
  match goHead e.args with
  | .error p => .error (.panic p)
  | .ok a0 =>
    match getSeriesArg ev a0 f u v with
    | .error _ => .error (.err .errMissingTimeseries)
    | .ok arg =>
      .ok (arg.map (fun a =>
        function a
          { a with
            Name := e.target ++ "(" ++ a.Name ++ ")",
            Values := List.replicate a.Values.length (F64.val 0) }))

/-- The column-collection loop of AggregateSeries (helper.go lines 193-196):
the i-th value of every input series, in input order. -/
def collectColumn (i : Nat) : List MetricData → Except GoPanic (List F64)
  | [] => .ok []
  | a :: rest =>
    match goIndex a.Values i with
    | .error p => .error p
    | .ok x =>
      match collectColumn i rest with
      | .error p => .error p
      | .ok r => .ok (x :: r)

/-- The per-index loop of AggregateSeries (helper.go lines 192-202): for each
index, the output sample is NaN when the collected column is empty and
`function` of the column otherwise. -/
def aggLoop (args : List MetricData) (function : List F64 → F64) :
    List Nat → Except GoPanic (List F64)
  | [] => .ok []
  | i :: rest =>
    match collectColumn i args with
    | .error p => .error p
    | .ok values =>
      let x := if 0 < values.length then function values else F64.nan
      match aggLoop args function rest with
      | .error p => .error p
      | .ok r => .ok (x :: r)

/-- AggregateSeries (helper.go lines 185-205): aligns the inputs, shallow
copies the first one, renames it to "target(rawArgs)", and fills a fresh
buffer of the first input's length from the per-index columns. -/
def aggregateSeries (extrapolatePoints : Bool) (e : Expr) (args : List MetricData)
    (function : List F64 → F64) : Except GoPanic (List MetricData) :=
  match alignSeries extrapolatePoints args with
  | .error p => .error p
  | .ok args =>
    match goHead args with
    | .error p => .error p
    | .ok first =>
      match aggLoop args function (List.range first.Values.length) with
      | .error p => .error p
      | .ok vals =>
        .ok [{ first with Name := e.target ++ "(" ++ e.rawArgs ++ ")", Values := vals }]

/-- Modelled from the spec: parser.IsNameChar (declared outside this package):
ASCII letters and digits plus the query language's structural punctuation,
here dot, underscore, hyphen, star, question mark, colon, square brackets,
percent, less-than and greater-than, on a raw byte. -/
def isNameChar (b : Nat) : Bool :=
  (decide (97 ≤ b) && decide (b ≤ 122)) ||
  (decide (65 ≤ b) && decide (b ≤ 90)) ||
  (decide (48 ≤ b) && decide (b ≤ 57)) ||
  b == 46 || b == 95 || b == 45 || b == 42 || b == 63 || b == 58 ||
  b == 91 || b == 93 || b == 37 || b == 60 || b == 62

/-- Go utf8.DecodeRuneInString on a byte sequence: the first rune and its
byte width; malformed or truncated input yields (RuneError, 1) and the empty
string yields (RuneError, 0). -/
def utf8DecodeRune : List Nat → Nat × Nat
  | [] => (65533, 0)
  | b0 :: rest =>
    if b0 < 128 then (b0, 1)
    else if b0 < 194 then (65533, 1)
    else if b0 < 224 then
      match rest with
      | b1 :: _ =>
        if 128 ≤ b1 ∧ b1 ≤ 191 then ((b0 - 192) * 64 + (b1 - 128), 2) else (65533, 1)
      | [] => (65533, 1)
    else if b0 < 240 then
      match rest with
      | b1 :: b2 :: _ =>
        let lo1 := if b0 = 224 then 160 else 128
        let hi1 := if b0 = 237 then 159 else 191
        if lo1 ≤ b1 ∧ b1 ≤ hi1 ∧ 128 ≤ b2 ∧ b2 ≤ 191 then
          ((b0 - 224) * 4096 + (b1 - 128) * 64 + (b2 - 128), 3)
        else (65533, 1)
      | _ => (65533, 1)
    else if b0 < 245 then
      match rest with
      | b1 :: b2 :: b3 :: _ =>
        let lo1 := if b0 = 240 then 144 else 128
        let hi1 := if b0 = 244 then 143 else 191
        if lo1 ≤ b1 ∧ b1 ≤ hi1 ∧ 128 ≤ b2 ∧ b2 ≤ 191 ∧ 128 ≤ b3 ∧ b3 ≤ 191 then
          ((b0 - 240) * 262144 + (b1 - 128) * 4096 + (b2 - 128) * 64 + (b3 - 128), 4)
        else (65533, 1)
      | _ => (65533, 1)
    else (65533, 1)

/-- The scanning loop of ExtractMetric (helper.go lines 219-252) over the
bytes of the input, with the brace-nesting counter, current byte offset and
start offset. The external RangeTables set is passed as the predicate `inR`
on decoded runes. One fuel unit is spent per iteration; the loop consumes at
least one byte per iteration, so any fuel above the byte count is enough. -/
def extractLoop (inR : Nat → Bool) (s : List Nat) :
    Nat → Nat → Nat → Nat → Nat × Nat
  | 0, _, i, start => (start, i)
  | fuel + 1, braces, i, start =>
    if i < s.length then
      let b := s.getD i 0
      if isNameChar b then extractLoop inR s fuel braces (i + 1) start
      else if b = 59 then (start, i)
      else if b = 123 then extractLoop inR s fuel (braces + 1) (i + 1) start
      else if b = 125 then
        if braces = 0 then (start, i) else extractLoop inR s fuel (braces - 1) (i + 1) start
      else if b = 44 then
        if braces = 0 then (start, i) else extractLoop inR s fuel braces (i + 1) start
      else if b = 41 then (start, i)
      else
        let rw := utf8DecodeRune (List.drop i s)
        if inR rw.1 then extractLoop inR s fuel braces (i + rw.2) start
        else extractLoop inR s fuel braces (i + rw.2) (i + 1)
    else (start, i)

/-- ExtractMetric (helper.go lines 208-255) on the UTF-8 bytes of the input:
scan for the terminating position and return the byte slice
`s[start:i]`. -/
def extractMetric (inR : Nat → Bool) (s : List Nat) : List Nat :=
  let p := extractLoop inR s (s.length + 1) 0 0 0
  List.take (p.2 - p.1) (List.drop p.1 s)

/-- Contains (helper.go lines 258-265): linear membership scan. -/
def goContains (a : List Int) (i : Int) : Bool :=
  match a with
  | [] => false
  | aa :: rest => if aa = i then true else goContains rest i

/-- When the running minimum start is at or before the series' start and the
step is positive, front padding prepends exactly
`(start - minStart) / step` zero samples. -/
theorem padFront_spec (mS : Int) (arg : MetricData) (h : 0 < arg.StepTime)
    (hle : mS ≤ arg.StartTime) :
    padFront mS arg = .ok { arg with
      StartTime := mS,
      Values := List.replicate ((arg.StartTime - mS).tdiv arg.StepTime).toNat (F64.val 0)
        ++ arg.Values } := by
  have hne : arg.StepTime ≠ 0 := by omega
  rcases eq_or_lt_of_le hle with heq | hlt
  · subst heq
    rw [padFront, if_neg (by omega), Int.sub_self, Int.zero_tdiv]
    rfl
  · have hv : ¬ (arg.StartTime - mS).tdiv arg.StepTime < 0 :=
      not_lt.mpr (Int.tdiv_nonneg (by omega) (by omega))
    rw [padFront, if_pos hlt, goDiv, if_neg hne]
    show (match goMake ((arg.StartTime - mS).tdiv arg.StepTime) with
      | Except.error p => Except.error p
      | Except.ok pad =>
        Except.ok { arg with Values := pad ++ arg.Values, StartTime := mS }) = _
    rw [goMake, if_neg hv]

/-- When the running maximum stop is at or after the series' stop and the
step is positive, back padding appends exactly `(maxStop - stop) / step`
zero samples. -/
theorem padBack_spec (mE : Int) (arg : MetricData) (h : 0 < arg.StepTime)
    (hle : arg.StopTime ≤ mE) :
    padBack mE arg = .ok { arg with
      StopTime := mE,
      Values := arg.Values
        ++ List.replicate ((mE - arg.StopTime).tdiv arg.StepTime).toNat (F64.val 0) } := by
  have hne : arg.StepTime ≠ 0 := by omega
  rcases eq_or_lt_of_le hle with heq | hlt
  · rw [padBack, if_neg (by omega), ← heq, Int.sub_self, Int.zero_tdiv]
    simp
  · have hv : ¬ (mE - arg.StopTime).tdiv arg.StepTime < 0 :=
      not_lt.mpr (Int.tdiv_nonneg (by omega) (by omega))
    rw [padBack, if_pos hlt, goDiv, if_neg hne]
    show (match goMake ((mE - arg.StopTime).tdiv arg.StepTime) with
      | Except.error p => Except.error p
      | Except.ok pad =>
        Except.ok { arg with Values := arg.Values ++ pad, StopTime := mE }) = _
    rw [goMake, if_neg hv]

/-- Closed form of the per-series padding step for positive step: the running
minimum start and maximum stop are folded in, the front and back paddings are
the truncated quotients of the time gaps by the step, and the padding samples
are Go's zero-filled fresh buffer. -/
theorem padOne_spec (mS mE : Int) (arg : MetricData) (h : 0 < arg.StepTime) :
    padOne mS mE arg = .ok (min mS arg.StartTime, max mE arg.StopTime,
      { arg with
        StartTime := min mS arg.StartTime,
        StopTime := max mE arg.StopTime,
        Values :=
          List.replicate ((arg.StartTime - min mS arg.StartTime).tdiv arg.StepTime).toNat
            (F64.val 0)
          ++ (arg.Values
          ++ List.replicate ((max mE arg.StopTime - arg.StopTime).tdiv arg.StepTime).toNat
            (F64.val 0)) }) := by
  have h1 : (if arg.StartTime < mS then arg.StartTime else mS) = min mS arg.StartTime := by
    split <;> omega
  rw [padOne, h1, padFront_spec _ _ h (min_le_right mS arg.StartTime)]
  simp only []
  have h2 : (if mE < arg.StopTime then arg.StopTime else mE) = max mE arg.StopTime := by
    split <;> omega
  rw [h2]
  rw [padBack_spec (max mE arg.StopTime)
    { arg with
      StartTime := min mS arg.StartTime,
      Values := List.replicate ((arg.StartTime - min mS arg.StartTime).tdiv arg.StepTime).toNat
        (F64.val 0) ++ arg.Values }
    h (le_max_right mE arg.StopTime)]
  simp [List.append_assoc]

/-- The padding sweep succeeds on any series list whose steps are all
positive, preserves positivity of the steps, and preserves the list
length. -/
theorem padFold_ok (args : List MetricData) :
    ∀ mS mE : Int, ∀ mV : Nat, (∀ a ∈ args, 0 < a.StepTime) →
    ∃ mS2 mE2 : Int, ∃ mV2 : Nat, ∃ args2 : List MetricData,
      padFold mS mE mV args = .ok (mS2, mE2, mV2, args2) ∧
      (∀ a ∈ args2, 0 < a.StepTime) ∧ args2.length = args.length := by
  induction args with
  | nil =>
    intro mS mE mV _
    exact ⟨mS, mE, mV, [], rfl, by simp, rfl⟩
  | cons arg rest ih =>
    intro mS mE mV h
    have harg : 0 < arg.StepTime := h arg (by simp)
    obtain ⟨mS2, mE2, mV2, rest2, hfold, hstep, hlen⟩ :=
      ih (min mS arg.StartTime) (max mE arg.StopTime)
        (if mV < arg.Values.length then arg.Values.length else mV)
        (fun a ha => h a (List.mem_cons_of_mem arg ha))
    refine ⟨mS2, mE2, mV2,
      { arg with
        StartTime := min mS arg.StartTime,
        StopTime := max mE arg.StopTime,
        Values :=
          List.replicate ((arg.StartTime - min mS arg.StartTime).tdiv arg.StepTime).toNat
            (F64.val 0) ++
          (arg.Values ++
          List.replicate ((max mE arg.StopTime - arg.StopTime).tdiv arg.StepTime).toNat
            (F64.val 0)) } :: rest2, ?_, ?_, ?_⟩
    · rw [padFold, padOne_spec _ _ _ harg]
      simp only []
      rw [hfold]
    · intro a ha
      rcases List.mem_cons.mp ha with rfl | ha
      · exact harg
      · exact hstep a ha
    · simp [hlen]

/-- Column collection succeeds and returns exactly the i-th value of every
series, in order, when the index is in bounds for each buffer. -/
theorem collectColumn_ok (i : Nat) (al : List MetricData)
    (h : ∀ a ∈ al, i < a.Values.length) :
    collectColumn i al = .ok (al.map (fun a => a.Values.getD i F64.nan)) := by
  induction al with
  | nil => rfl
  | cons a rest ih =>
    have hi : i < a.Values.length := h a (by simp)
    have hgo : goIndex a.Values i = .ok (a.Values.getD i F64.nan) := by
      rw [goIndex, List.getElem?_eq_getElem hi, List.getD_eq_getElem a.Values F64.nan hi]
    rw [collectColumn, hgo]
    simp only []
    rw [ih (fun a ha => h a (List.mem_cons_of_mem _ ha))]
    simp

/-- The aggregation loop over a list of in-bounds indices produces, per index,
the aggregate of the collected column (or NaN for an empty column). -/
theorem aggLoop_ok (al : List MetricData) (fn : List F64 → F64) (is : List Nat)
    (h : ∀ i ∈ is, ∀ a ∈ al, i < a.Values.length) :
    aggLoop al fn is = .ok (is.map (fun i =>
      if 0 < (al.map (fun a => a.Values.getD i F64.nan)).length then
        fn (al.map (fun a => a.Values.getD i F64.nan))
      else F64.nan)) := by
  induction is with
  | nil => rfl
  | cons i rest ih =>
    rw [aggLoop, collectColumn_ok i al (h i (by simp))]
    simp only []
    rw [ih (fun j hj => h j (List.mem_cons_of_mem _ hj))]
    simp

/-- C1: AlignSeries does prepend and append padding of the stated lengths in
the stated positions, but the padding samples are the float64 zero value 0.0
produced by Go's `make`, not NaN: on two step-1 single-sample series over
[0,1] and [1,2], the first series gets 0.0 appended and the second gets 0.0
prepended, and 0.0 is a different float64 value than NaN. This contradicts
the claim (and the function's own doc comment, which promises NaNs). -/
theorem alignSeries_pads_with_zero_not_nan :
    alignSeries false [⟨"a", [.val 5], 0, 1, 1⟩, ⟨"b", [.val 7], 1, 2, 1⟩] =
      .ok [⟨"a", [.val 5, .val 0], 0, 2, 1⟩, ⟨"b", [.val 0, .val 7], 0, 2, 1⟩] ∧
    F64.val 0 ≠ F64.nan :=
  ⟨rfl, by decide⟩

/-- C2 counterexample: for two series with equal step 2, starts 0 and 1 (the
offset 1 is not a multiple of the step) and stops 4 and 3, AlignSeries makes
the recorded starts and stops identical but leaves value buffers of lengths
2 and 1 — the claimed identical buffer length is false. -/
theorem alignSeries_nondivisible_offset_unequal_lengths :
    alignSeries false [⟨"a", [.val 1, .val 2], 0, 4, 2⟩, ⟨"b", [.val 3], 1, 3, 2⟩] =
      .ok [⟨"a", [.val 1, .val 2], 0, 4, 2⟩, ⟨"b", [.val 3], 0, 4, 2⟩] ∧
    ([F64.val 1, F64.val 2] : List F64).length ≠ ([F64.val 3] : List F64).length :=
  ⟨rfl, by decide⟩

/-- C2 (amended): for two series with equal positive step s, start times
t0 < t1 with s dividing t1 - t0, buffers of n0 and n1 samples and stops
t0 + n0*s and t1 + n1*s, AlignSeries (extrapolation disabled) returns the
series with identical recorded start times, identical recorded stop times
and value buffers of identical length; the returned list is the updated
input list itself. -/
theorem alignSeries_two_series_common_grid (nm0 nm1 : String) (V0 V1 : List F64)
    (t0 t1 s : Int) (n0 n1 : Nat)
    (hs : 0 < s) (hlt : t0 < t1) (hdvd : s ∣ (t1 - t0))
    (hl0 : V0.length = n0) (hl1 : V1.length = n1) :
    ∃ A B : MetricData,
      alignSeries false
        [⟨nm0, V0, t0, t0 + (n0 : Int) * s, s⟩, ⟨nm1, V1, t1, t1 + (n1 : Int) * s, s⟩] =
        .ok [A, B] ∧
      A.StartTime = B.StartTime ∧ A.StopTime = B.StopTime ∧
      A.Values.length = B.Values.length := by
  subst hl0 hl1
  obtain ⟨q, hq⟩ := hdvd
  have hsq : 0 < s * q := by omega
  have hq0 : 0 < q := by
    rcases mul_pos_iff.mp hsq with ⟨_, h⟩ | ⟨h, _⟩
    · exact h
    · omega
  set E0 : Int := t0 + (V0.length : Int) * s with hE0
  set E1 : Int := t1 + (V1.length : Int) * s with hE1
  set M : Int := max E0 E1 with hM
  set A : MetricData := ⟨nm0, V0, t0, E0, s⟩ with hA
  set B : MetricData := ⟨nm1, V1, t1, E1, s⟩ with hB
  have hstepA : (0 : Int) < A.StepTime := hs
  have hstepB : (0 : Int) < B.StepTime := hs
  have hA1 : padOne t0 E0 A = .ok (t0, E0, A) := by
    rw [padOne_spec _ _ _ hstepA]
    simp [hA, Int.zero_tdiv]
  set B1 : MetricData :=
    ⟨nm1, List.replicate ((t1 - t0).tdiv s).toNat (F64.val 0) ++
      (V1 ++ List.replicate ((M - E1).tdiv s).toNat (F64.val 0)), t0, M, s⟩ with hB1
  have hpB1 : padOne t0 E0 B = .ok (t0, M, B1) := by
    rw [padOne_spec _ _ _ hstepB]
    simp only [hB, hB1]
    rw [min_eq_left (le_of_lt hlt)]
  set A2 : MetricData :=
    ⟨nm0, V0 ++ List.replicate ((M - E0).tdiv s).toNat (F64.val 0), t0, M, s⟩ with hA2
  have hpA2 : padOne t0 M A = .ok (t0, M, A2) := by
    rw [padOne_spec _ _ _ hstepA]
    simp only [hA, hA2]
    rw [min_self, max_eq_left (le_max_left E0 E1)]
    simp [Int.zero_tdiv]
  have hpB2 : padOne t0 M B1 = .ok (t0, M, B1) := by
    have hstepB1 : (0 : Int) < B1.StepTime := hs
    rw [padOne_spec _ _ _ hstepB1]
    simp [hB1, Int.zero_tdiv]
  refine ⟨A2, B1, ?_, rfl, rfl, ?_⟩
  · rw [alignSeries]
    show (match alignOnePass false A.StartTime A.StopTime 0 A.StepTime [A, B] with
      | Except.error p => Except.error p
      | Except.ok (mS, mE, mV, mStep, args) =>
        match alignOnePass false mS mE mV mStep args with
        | Except.error p => Except.error p
        | Except.ok (_, _, _, _, args) => Except.ok args) = Except.ok [A2, B1]
    rw [alignOnePass]
    simp only [Bool.false_eq_true, if_false]
    rw [padFold, hA1]
    simp only []
    rw [padFold, hpB1]
    simp only []
    rw [padFold]
    simp only []
    rw [alignOnePass]
    simp only [Bool.false_eq_true, if_false]
    rw [padFold, hpA2]
    simp only []
    rw [padFold, hpB2]
    simp only []
    rw [padFold]
  · simp only [hA2, hB1]
    simp only [List.length_append, List.length_replicate]
    have hk : E1 - E0 = s * (q + (V1.length : Int) - V0.length) := by
      rw [hE0, hE1]
      linear_combination hq
    rcases le_total E1 E0 with hc | hc
    · have hM0 : M = E0 := max_eq_left hc
      have hknp : q + (V1.length : Int) - V0.length ≤ 0 := by
        by_contra hpos
        push_neg at hpos
        nlinarith
      have hme1 : E0 - E1 = s * (-(q + (V1.length : Int) - V0.length)) := by
        linear_combination (-1 : Int) * hk
      rw [hM0, Int.sub_self, Int.zero_tdiv, hme1,
        Int.mul_tdiv_cancel_left _ (by omega : s ≠ 0), hq,
        Int.mul_tdiv_cancel_left _ (by omega : s ≠ 0)]
      omega
    · have hM1 : M = E1 := max_eq_right hc
      have hknn : 0 ≤ q + (V1.length : Int) - V0.length := by
        by_contra hneg
        push_neg at hneg
        nlinarith
      rw [hM1, Int.sub_self, Int.zero_tdiv, hk,
        Int.mul_tdiv_cancel_left _ (by omega : s ≠ 0), hq,
        Int.mul_tdiv_cancel_left _ (by omega : s ≠ 0)]
      omega

/-- C2 witness: the amended alignment theorem applied to two concrete series
with step 2, starts 0 and 2, and 2 resp. 1 samples. -/
theorem alignSeries_two_series_common_grid_witness :
    ∃ A B : MetricData,
      alignSeries false
        [⟨"a", [.val 1, .val 2], 0, 0 + ((2 : Nat) : Int) * 2, 2⟩,
         ⟨"b", [.val 3], 2, 2 + ((1 : Nat) : Int) * 2, 2⟩] = .ok [A, B] ∧
      A.StartTime = B.StartTime ∧ A.StopTime = B.StopTime ∧
      A.Values.length = B.Values.length :=
  alignSeries_two_series_common_grid "a" "b" [.val 1, .val 2] [.val 3] 0 2 2 2 1
    (by decide) (by decide) ⟨1, by decide⟩ rfl rfl

/-- C5: with extrapolation enabled, AlignSeries does not guard the
single-sample case: on a series with one sample and step 2 next to a step-1
series, the slope computation reads `arg.Values[1]` out of bounds and the
function panics instead of padding with NaN. The claim (and the spec's
required guard) is right; the code is missing the guard. -/
theorem alignSeries_extrapolation_single_sample_panic :
    alignSeries true [⟨"a", [.val 1, .val 2], 0, 2, 1⟩, ⟨"b", [.val 5], 0, 2, 2⟩] =
      .error .indexOutOfRange :=
  rfl

/-- C3: GetSeriesArgs resolves its nodes in order and concatenates; a node
failing with SeriesDoesNotExist contributes zero series without aborting, any
other error is returned immediately, an empty concatenation yields
SeriesDoesNotExist, and over three nodes whose middle one resolves to zero
series it returns the concatenation of the other two without error. -/
theorem getSeriesArgs_tolerant_resolution (ev : Evaluator) (f u : Int) (v : ValuesMap) :
    (∀ e rest, getSeriesArg ev e f u v = .error .errSeriesDoesNotExist →
      getSeriesArgs ev (e :: rest) f u v = getSeriesArgs ev rest f u v) ∧
    (∀ e rest err, getSeriesArg ev e f u v = .error err → err ≠ .errSeriesDoesNotExist →
      getSeriesArgs ev (e :: rest) f u v = .error err) ∧
    (∀ es, collectSeriesArgs ev es f u v = .ok [] →
      getSeriesArgs ev es f u v = .error .errSeriesDoesNotExist) ∧
    (∀ e1 e2 e3 r1 r3, getSeriesArg ev e1 f u v = .ok r1 →
      getSeriesArg ev e2 f u v = .ok [] → getSeriesArg ev e3 f u v = .ok r3 →
      r1 ++ r3 ≠ [] → getSeriesArgs ev [e1, e2, e3] f u v = .ok (r1 ++ r3)) := by
  refine ⟨?_, ?_, ?_, ?_⟩
  · intro e rest hskip
    rw [getSeriesArgs, getSeriesArgs, collectSeriesArgs, hskip]
    simp
  · intro e rest err herr hne
    rw [getSeriesArgs, collectSeriesArgs, herr]
    simp only []
    rw [if_neg hne]
  · intro es hempty
    rw [getSeriesArgs, hempty]
    rfl
  · intro e1 e2 e3 r1 r3 h1 h2 h3 hne
    have hcol : collectSeriesArgs ev [e1, e2, e3] f u v = .ok (r1 ++ r3) := by
      rw [collectSeriesArgs, h1]
      simp only []
      rw [collectSeriesArgs, h2]
      simp only []
      rw [collectSeriesArgs, h3]
      simp only []
      rw [collectSeriesArgs]
      simp
    rw [getSeriesArgs, hcol]
    simp only []
    rw [if_neg hne]

/-- C3 witness: a concrete evaluator over three name nodes whose middle node
resolves to zero series; the result is the concatenation of the outer two. -/
theorem getSeriesArgs_tolerant_resolution_witness :
    getSeriesArgs
      (fun e _ _ _ =>
        if e.target = "one" then .ok [⟨"m1", [], 0, 0, 1⟩]
        else if e.target = "zero" then .ok []
        else .ok [⟨"m3", [], 0, 0, 1⟩])
      [.mk true false "one" "" [], .mk true false "zero" "" [], .mk true false "three" "" []]
      0 1 [] = .ok ([⟨"m1", [], 0, 0, 1⟩] ++ [⟨"m3", [], 0, 0, 1⟩]) :=
  (getSeriesArgs_tolerant_resolution
      (fun e _ _ _ =>
        if e.target = "one" then .ok [⟨"m1", [], 0, 0, 1⟩]
        else if e.target = "zero" then .ok []
        else .ok [⟨"m3", [], 0, 0, 1⟩])
      0 1 []).2.2.2
    (.mk true false "one" "" []) (.mk true false "zero" "" []) (.mk true false "three" "" [])
    [⟨"m1", [], 0, 0, 1⟩] [⟨"m3", [], 0, 0, 1⟩] rfl rfl rfl (by decide)

/-- C4 counterexample: the claim is not true of every non-empty input list —
on two series whose aligned buffers end up with different lengths (starts 0
and 1, step 2), the per-index loop indexes the shorter buffer out of bounds
and AggregateSeries panics instead of returning one output series. -/
theorem aggregateSeries_mismatched_lengths_panic :
    aggregateSeries false (.mk false true "sum" "x" [])
      [⟨"a", [.val 1, .val 2], 0, 4, 2⟩, ⟨"b", [.val 3], 1, 3, 2⟩]
      (fun _ => F64.nan) = .error .indexOutOfRange :=
  rfl

/-- C4 (amended): for every input list whose alignment succeeds with a
non-empty result in which no buffer is shorter than the first one,
AggregateSeries returns exactly one output series: a shallow copy of the
first aligned input renamed to "target(rawArgs)", whose buffer has the first
aligned input's length and whose i-th sample is the aggregate of the i-th
values of all inputs collected verbatim (NaN included), with NaN guarding
the (here impossible) empty-column case. -/
theorem aggregateSeries_shape_and_columns (ep : Bool) (e : Expr) (args : List MetricData)
    (fn : List F64 → F64) (a0 : MetricData) (rest : List MetricData)
    (hal : alignSeries ep args = .ok (a0 :: rest))
    (hlen : ∀ a ∈ a0 :: rest, a0.Values.length ≤ a.Values.length) :
    aggregateSeries ep e args fn = .ok
      [{ a0 with
        Name := e.target ++ "(" ++ e.rawArgs ++ ")",
        Values := (List.range a0.Values.length).map (fun i =>
          if 0 < ((a0 :: rest).map (fun a => a.Values.getD i F64.nan)).length then
            fn ((a0 :: rest).map (fun a => a.Values.getD i F64.nan))
          else F64.nan) }] := by
  rw [aggregateSeries, hal]
  simp only [goHead]
  rw [aggLoop_ok _ _ _
    (fun i hi a ha => lt_of_lt_of_le (List.mem_range.mp hi) (hlen a ha))]

/-- C4 witness: the amended aggregation theorem applied to two aligned
single-sample series with a constant aggregate function. -/
theorem aggregateSeries_shape_and_columns_witness :
    aggregateSeries false (.mk false true "sum" "a,b" [])
      [⟨"a", [.val 1], 0, 2, 2⟩, ⟨"b", [.val 3], 0, 2, 2⟩]
      (fun _ => F64.val 7) = .ok
      [{ (⟨"a", [.val 1], 0, 2, 2⟩ : MetricData) with
        Name := (Expr.mk false true "sum" "a,b" []).target ++ "(" ++
          (Expr.mk false true "sum" "a,b" []).rawArgs ++ ")",
        Values := (List.range ([F64.val 1] : List F64).length).map (fun i =>
          if 0 < (([⟨"a", [.val 1], 0, 2, 2⟩, ⟨"b", [.val 3], 0, 2, 2⟩] :
              List MetricData).map (fun a => a.Values.getD i F64.nan)).length then
            (fun _ => F64.val 7)
              (([⟨"a", [.val 1], 0, 2, 2⟩, ⟨"b", [.val 3], 0, 2, 2⟩] :
                List MetricData).map (fun a => a.Values.getD i F64.nan))
          else F64.nan) }] :=
  aggregateSeries_shape_and_columns false (.mk false true "sum" "a,b" [])
    [⟨"a", [.val 1], 0, 2, 2⟩, ⟨"b", [.val 3], 0, 2, 2⟩] (fun _ => F64.val 7)
    ⟨"a", [.val 1], 0, 2, 2⟩ [⟨"b", [.val 3], 0, 2, 2⟩] rfl (by decide)

/-- C6: in ExtractMetric's scanner a semicolon or a closing parenthesis
always terminates scanning, an opening brace increments the nesting counter,
a closing brace decrements it when positive and terminates scanning at zero,
and a comma terminates scanning exactly when the nesting counter is zero; in
particular the name extracted from "host.\x7ba,b\x7d.load,rest" is
"host.\x7ba,b\x7d.load" (byte lists below spell those strings). -/
theorem extractMetric_terminator_rules (inR : Nat → Bool) (s : List Nat)
    (fuel braces i start : Nat) (h : i < s.length) :
    (s.getD i 0 = 59 → extractLoop inR s (fuel + 1) braces i start = (start, i)) ∧
    (s.getD i 0 = 41 → extractLoop inR s (fuel + 1) braces i start = (start, i)) ∧
    (s.getD i 0 = 123 → extractLoop inR s (fuel + 1) braces i start =
      extractLoop inR s fuel (braces + 1) (i + 1) start) ∧
    (s.getD i 0 = 125 → braces = 0 →
      extractLoop inR s (fuel + 1) braces i start = (start, i)) ∧
    (s.getD i 0 = 125 → 0 < braces → extractLoop inR s (fuel + 1) braces i start =
      extractLoop inR s fuel (braces - 1) (i + 1) start) ∧
    (s.getD i 0 = 44 → braces = 0 →
      extractLoop inR s (fuel + 1) braces i start = (start, i)) ∧
    (s.getD i 0 = 44 → 0 < braces → extractLoop inR s (fuel + 1) braces i start =
      extractLoop inR s fuel braces (i + 1) start) ∧
    (∀ inR2 : Nat → Bool,
      extractMetric inR2
        [104, 111, 115, 116, 46, 123, 97, 44, 98, 125, 46, 108, 111, 97, 100,
          44, 114, 101, 115, 116] =
        [104, 111, 115, 116, 46, 123, 97, 44, 98, 125, 46, 108, 111, 97, 100]) := by
  refine ⟨?_, ?_, ?_, ?_, ?_, ?_, ?_, fun inR2 => rfl⟩ <;> intro hb
  · rw [extractLoop, if_pos h]
    simp only [hb]
    rfl
  · rw [extractLoop, if_pos h]
    simp only [hb]
    rfl
  · rw [extractLoop, if_pos h]
    simp only [hb]
    rfl
  · intro hbr
    subst hbr
    rw [extractLoop, if_pos h]
    simp only [hb]
    rfl
  · intro hbr
    rw [extractLoop, if_pos h]
    simp only [hb]
    have : ¬ braces = 0 := by omega
    simp only [isNameChar]
    norm_num [this]
  · intro hbr
    subst hbr
    rw [extractLoop, if_pos h]
    simp only [hb]
    rfl
  · intro hbr
    rw [extractLoop, if_pos h]
    simp only [hb]
    have : ¬ braces = 0 := by omega
    simp only [isNameChar]
    norm_num [this]

/-- C6 witness: the terminator rules applied at concrete scanner states — a
semicolon terminates, a comma inside braces continues, an unbalanced closing
brace terminates, and the concrete brace-group name is extracted. -/
theorem extractMetric_terminator_rules_witness :
    extractLoop (fun _ => false) [59] 6 0 0 0 = (0, 0) ∧
    extractLoop (fun _ => false) [44] 6 1 0 0 = extractLoop (fun _ => false) [44] 5 1 1 0 ∧
    extractLoop (fun _ => false) [125] 6 0 0 0 = (0, 0) ∧
    extractMetric (fun _ => false)
      [104, 111, 115, 116, 46, 123, 97, 44, 98, 125, 46, 108, 111, 97, 100,
        44, 114, 101, 115, 116] =
      [104, 111, 115, 116, 46, 123, 97, 44, 98, 125, 46, 108, 111, 97, 100] :=
  ⟨(extractMetric_terminator_rules (fun _ => false) [59] 5 0 0 0 (by decide)).1 rfl,
   (extractMetric_terminator_rules (fun _ => false) [44] 5 1 0 0
      (by decide)).2.2.2.2.2.2.1 rfl (by decide),
   (extractMetric_terminator_rules (fun _ => false) [125] 5 0 0 0
      (by decide)).2.2.2.1 rfl rfl,
   (extractMetric_terminator_rules (fun _ => false) [59] 5 0 0 0
      (by decide)).2.2.2.2.2.2.2 (fun _ => false)⟩

/-- C7: ForEachSeriesDo, when the node's first argument resolves to a series
list, returns the per-series outputs in input order, each produced by the
transform applied to the input and a template that shallow copies the input,
renames it to "target(input name)", and pre-allocates a fresh (zero-filled)
buffer of the input's length. -/
theorem forEachSeriesDo_order_and_templates (ev : Evaluator) (e : Expr) (f u : Int)
    (v : ValuesMap) (fn : MetricData → MetricData → MetricData) (a0 : Expr)
    (rest : List Expr) (series : List MetricData)
    (hargs : e.args = a0 :: rest) (hres : getSeriesArg ev a0 f u v = .ok series) :
    forEachSeriesDo ev e f u v fn = .ok (series.map (fun a =>
      fn a { a with
        Name := e.target ++ "(" ++ a.Name ++ ")",
        Values := List.replicate a.Values.length (F64.val 0) })) := by
  rw [forEachSeriesDo, hargs]
  simp only [goHead]
  rw [hres]

/-- C7 witness: the transform theorem applied to a node over two concrete
series, with a transform returning its template; the outputs come back in
input order with the renamed templates. -/
theorem forEachSeriesDo_order_and_templates_witness :
    forEachSeriesDo
      (fun _ _ _ _ => .ok [⟨"x", [.val 1, .val 2], 0, 2, 1⟩, ⟨"y", [.val 3], 0, 1, 1⟩])
      (.mk false true "abs" "x,y" [.mk true false "x" "" []]) 0 2 []
      (fun _ r => r) =
      .ok (([⟨"x", [.val 1, .val 2], 0, 2, 1⟩, ⟨"y", [.val 3], 0, 1, 1⟩] :
          List MetricData).map (fun a =>
        (fun _ r => r) a
          { a with
            Name := (Expr.mk false true "abs" "x,y" [.mk true false "x" "" []]).target ++
              "(" ++ a.Name ++ ")",
            Values := List.replicate a.Values.length (F64.val 0) })) :=
  forEachSeriesDo_order_and_templates
    (fun _ _ _ _ => .ok [⟨"x", [.val 1, .val 2], 0, 2, 1⟩, ⟨"y", [.val 3], 0, 1, 1⟩])
    (.mk false true "abs" "x,y" [.mk true false "x" "" []]) 0 2 []
    (fun _ r => r) (.mk true false "x" "" []) [] _ rfl rfl

/-- C8: GetSeriesArg fails with MissingTimeseries when the node is neither a
name reference nor a function call; otherwise it returns the Evaluator's
result unchanged (so evaluator errors propagate verbatim), and — provided
the evaluator itself does not return MissingTimeseries — it fails with
MissingTimeseries exactly when the node is neither kind. -/
theorem getSeriesArg_missing_timeseries_spec (ev : Evaluator) (e : Expr) (f u : Int)
    (v : ValuesMap) :
    (e.isName = false → e.isFunc = false →
      getSeriesArg ev e f u v = .error .errMissingTimeseries) ∧
    ((e.isName = true ∨ e.isFunc = true) → getSeriesArg ev e f u v = ev e f u v) ∧
    (ev e f u v ≠ .error .errMissingTimeseries →
      (getSeriesArg ev e f u v = .error .errMissingTimeseries ↔
        e.isName = false ∧ e.isFunc = false)) := by
  have hdeleg : (e.isName = true ∨ e.isFunc = true) →
      getSeriesArg ev e f u v = ev e f u v := by
    intro h
    have hc : (!e.isName && !e.isFunc) = false := by
      rcases h with h | h <;> simp [h]
    rw [getSeriesArg, hc]
    simp only [Bool.false_eq_true, if_false]
    cases hev : ev e f u v <;> rfl
  refine ⟨?_, hdeleg, ?_⟩
  · intro h1 h2
    rw [getSeriesArg, h1, h2]
    rfl
  · intro hev
    constructor
    · intro hres
      cases hN : e.isName <;> cases hF : e.isFunc
      · exact ⟨rfl, rfl⟩
      all_goals
        exfalso
        apply hev
        rw [← hdeleg (by simp [hN, hF]), hres]
    · rintro ⟨h1, h2⟩
      rw [getSeriesArg, h1, h2]
      rfl

/-- C8 witness: a literal node (neither name nor function) fails with
MissingTimeseries, while a name node returns the concrete evaluator's result
unchanged. -/
theorem getSeriesArg_missing_timeseries_spec_witness :
    getSeriesArg (fun _ _ _ _ => .ok []) (.mk false false "1" "" []) 0 1 [] =
      .error .errMissingTimeseries ∧
    getSeriesArg (fun _ _ _ _ => .error (.errOther "boom"))
      (.mk true false "m" "" []) 0 1 [] =
      (fun _ _ _ _ => .error (.errOther "boom"))
        (Expr.mk true false "m" "" []) 0 1 ([] : ValuesMap) :=
  ⟨(getSeriesArg_missing_timeseries_spec (fun _ _ _ _ => .ok [])
      (.mk false false "1" "" []) 0 1 []).1 rfl rfl,
   (getSeriesArg_missing_timeseries_spec (fun _ _ _ _ => .error (.errOther "boom"))
      (.mk true false "m" "" []) 0 1 []).2.1 (Or.inl rfl)⟩

/-- C9 counterexample: on the bytes [195, 169, 97, 98, 41] (the two-byte rune
U+00E9 followed by "ab)"), the discarded two-byte rune is not skipped whole:
the start offset advances only one byte, so the rune's continuation byte 169
remains in the returned name, which is [169, 97, 98] and not [97, 98] as the
claim's "contributes no bytes" would require. -/
theorem extractMetric_multibyte_discard_keeps_bytes :
    extractMetric (fun _ => false) [195, 169, 97, 98, 41] = [169, 97, 98] ∧
    ([169, 97, 98] : List Nat) ≠ [97, 98] :=
  ⟨rfl, by decide⟩

/-- C9 (amended): when the scanner meets a byte that is neither a name
character nor one of the structural terminators and whose decoded rune is not
in the allowed ranges, the start offset is advanced by exactly one byte (to
i + 1, past the character only when it is single-byte) while the scan
position advances past the character's full UTF-8 width, and scanning
continues; continuation bytes of a discarded multi-byte rune therefore stay
inside the returned name. -/
theorem extractMetric_discard_advances_start_one_byte (inR : Nat → Bool) (s : List Nat)
    (fuel braces i start : Nat) (h : i < s.length)
    (hname : isNameChar (s.getD i 0) = false)
    (h59 : s.getD i 0 ≠ 59) (h123 : s.getD i 0 ≠ 123) (h125 : s.getD i 0 ≠ 125)
    (h44 : s.getD i 0 ≠ 44) (h41 : s.getD i 0 ≠ 41)
    (hrange : inR (utf8DecodeRune (List.drop i s)).1 = false) :
    extractLoop inR s (fuel + 1) braces i start =
      extractLoop inR s fuel braces (i + (utf8DecodeRune (List.drop i s)).2) (i + 1) := by
  rw [extractLoop, if_pos h]
  simp only [hname, Bool.false_eq_true, if_false,
    if_neg h59, if_neg h123, if_neg h125, if_neg h44, if_neg h41, hrange]

/-- C9 witness: the discard step applied at the two-byte rune U+00E9 at
offset 0 of [195, 169, 97, 98, 41]: the scan position jumps its width 2 while
the start offset becomes 1. -/
theorem extractMetric_discard_advances_start_one_byte_witness :
    extractLoop (fun _ => false) [195, 169, 97, 98, 41] 6 0 0 0 =
      extractLoop (fun _ => false) [195, 169, 97, 98, 41] 5 0
        (0 + (utf8DecodeRune (List.drop 0 [195, 169, 97, 98, 41])).2) (0 + 1) :=
  extractMetric_discard_advances_start_one_byte (fun _ => false)
    [195, 169, 97, 98, 41] 5 0 0 0 (by decide) rfl (by decide) (by decide)
    (by decide) (by decide) (by decide) rfl

/-- C10 counterexample: AlignSeries is not total on every non-empty list with
extrapolation disabled — a second series with step 0 whose start is later
than the first's makes the front-padding count divide by zero, a panic. -/
theorem alignSeries_zero_step_divide_by_zero :
    alignSeries false [⟨"a", [.val 1], 0, 1, 1⟩, ⟨"b", [], 1, 1, 0⟩] =
      .error .divideByZero :=
  rfl

/-- C10 (amended): AlignSeries reads the first series' metadata before any
length check, so it panics on the empty list (for either state of the
extrapolation flag); and for every non-empty input list whose steps are all
positive, with extrapolation disabled, it returns normally — the padding
passes perform no out-of-bounds access. -/
theorem alignSeries_empty_panics_and_positive_step_total :
    (∀ ep : Bool, alignSeries ep [] = .error .indexOutOfRange) ∧
    (∀ args : List MetricData, args ≠ [] → (∀ a ∈ args, 0 < a.StepTime) →
      ∃ r, alignSeries false args = .ok r) := by
  constructor
  · intro ep
    rfl
  · intro args hne h
    obtain ⟨a, rest, rfl⟩ : ∃ a rest, args = a :: rest := by
      cases args with
      | nil => simp at hne
      | cons a rest => exact ⟨a, rest, rfl⟩
    obtain ⟨mS2, mE2, mV2, args2, hf1, hstep2, hlen2⟩ :=
      padFold_ok (a :: rest) a.StartTime a.StopTime 0 h
    obtain ⟨mS3, mE3, mV3, args3, hf2, hstep3, hlen3⟩ :=
      padFold_ok args2 mS2 mE2 mV2 hstep2
    refine ⟨args3, ?_⟩
    rw [alignSeries]
    simp only [goHead]
    rw [alignOnePass]
    simp only [Bool.false_eq_true, if_false]
    rw [hf1]
    simp only []
    rw [alignOnePass]
    simp only [Bool.false_eq_true, if_false]
    rw [hf2]

/-- C10 witness: the empty list panics, and a concrete positive-step
singleton list aligns normally. -/
theorem alignSeries_empty_panics_and_positive_step_total_witness :
    alignSeries true [] = .error .indexOutOfRange ∧
    ∃ r, alignSeries false [⟨"a", [.val 1], 0, 1, 1⟩] = .ok r :=
  ⟨alignSeries_empty_panics_and_positive_step_total.1 true,
   alignSeries_empty_panics_and_positive_step_total.2
     [⟨"a", [.val 1], 0, 1, 1⟩] (by decide) (by decide)⟩

end CarbonHelper
